import Mathlib

/-!
Verification development for the section-synchronization layer of a
single-page portfolio site.  The embedding covers:

* the legacy jQuery page script (breakpoint state machine `checkWidths`,
  panel transition `showSection`, nav direction computation, overlay guard);
* the Next.js `InContext` container (router event registration and teardown)
  and the `Screen` component's side-nav mounting condition;
* the section index resolver, which is described by the specification
  (its hook `useCurrentSectionIndex` is not among the sources).

Numbers that the scripts manipulate (scroll offsets, element heights,
viewport widths, timer delays) are modelled as rationals, which is exact
for every arithmetic operation the scripts perform.
-/

namespace Krockwell

/-! ## Sections and the index resolver -/

/-- A logical content section of a page: identifier, 0-based order, and the
scroll offset at which the section becomes current. -/
structure ContentSection where
  id : String
  order : Nat
  startOffset : ℚ
deriving DecidableEq

/-- Default section used with `List.getD`. -/
def dSec : ContentSection := { id := "", order := 0, startOffset := 0 }

/-- Modelled from the spec: the scan underlying the section index resolver
(the `useCurrentSectionIndex` hook is not among the sources).  Walks the
section list keeping the last index whose `startOffset` is at most the
current offset; `acc` starts at 0, so an offset before every start offset
yields index 0. -/
def resolveAux (offset : ℚ) : List ContentSection → Nat → Nat → Nat
  | [], _, acc => acc
  | s :: rest, i, acc =>
    if s.startOffset ≤ offset then resolveAux offset rest (i + 1) i
    else resolveAux offset rest (i + 1) acc

/-- Modelled from the spec: `resolve` maps a section list and a scroll
offset to the active section index; an empty list has no active section
(`none`, the undefined case). -/
def resolve (sections : List ContentSection) (offset : ℚ) : Option Nat :=
  match sections with
  | [] => none
  | _ :: _ => some (resolveAux offset sections 0 0)

/-- Index of the last section of the list whose `startOffset` is at most
`offset`, if any.  Specification device used to characterise `resolveAux`. -/
def lastSat (offset : ℚ) : List ContentSection → Option Nat
  | [] => none
  | s :: rest =>
    match lastSat offset rest with
    | some k => some (k + 1)
    | none => if s.startOffset ≤ offset then some 0 else none

/-- Well-formedness of a section list as the spec states it: orders are the
contiguous 0-based indices, and start offsets are sorted ascending. -/
def sectionsWellFormed (l : List ContentSection) : Prop :=
  l.map (fun s => s.order) = List.range l.length ∧
    l.Pairwise (fun a b => a.startOffset ≤ b.startOffset)

/-- The three-section list of the specification scenario. -/
def demoSections : List ContentSection :=
  [ { id := "home", order := 0, startOffset := 0 },
    { id := "about", order := 1, startOffset := 800 },
    { id := "work", order := 2, startOffset := 1600 } ]

/-! ## Panels and page state (legacy jQuery script) -/

/-- A css `top` value: either a pixel offset or a percentage. -/
inductive TopPos where
  | px (v : ℚ)
  | pct (v : ℚ)
deriving DecidableEq

/-- One `.inner-col` panel.  `hidden` and `mobileCls` model the presence of
the `hidden` and `mobile` classes, `displayed` models `display: block`
versus `display: none`, `top` the css `top` property and `height` the value
of `outerHeight()`. -/
structure Panel where
  name : String
  isHome : Bool
  hidden : Bool
  mobileCls : Bool
  displayed : Bool
  top : TopPos
  height : ℚ
deriving DecidableEq

/-- State of the legacy page: the panels, the `mobile` flag, the document
height read by `showSection`, the current wall-clock time in milliseconds
and the pending `setTimeout` fire times in schedule order. -/
structure PageState where
  panels : List Panel
  mobile : Bool
  docHeight : ℚ
  now : ℚ
  timers : List ℚ
deriving DecidableEq

/-- The mobile width threshold of the legacy script. -/
def MOBILE_SIZE : ℚ := 800

/-- Effect of entering mobile view on one panel: remove `hidden`, add
`mobile`, set `display: block`. -/
def toMobilePanel (p : Panel) : Panel :=
  { p with hidden := false, mobileCls := true, displayed := true }

/-- Effect of leaving mobile view on one panel: non-home panels lose
`mobile`, gain `hidden` and `display: none`; the home panel loses `mobile`
and is reset to `top: 50%`. -/
def toFullPanel (p : Panel) : Panel :=
  if p.isHome then { p with mobileCls := false, top := TopPos.pct 50 }
  else { p with mobileCls := false, hidden := true, displayed := false }

/-- The `checkWidths` resize handler: acts only when the viewport width
crosses the mobile threshold in the direction opposite to the remembered
`mobile` flag. -/
def checkWidths (w : ℚ) (s : PageState) : PageState :=
  if w ≤ MOBILE_SIZE ∧ s.mobile = false then
    { s with mobile := true, panels := s.panels.map toMobilePanel }
  else if MOBILE_SIZE < w ∧ s.mobile = true then
    { s with mobile := false, panels := s.panels.map toFullPanel }
  else s

/-- The two layout modes. -/
inductive Mode where
  | Paneled
  | Stacked
deriving DecidableEq

/-- Layout mode currently in force, read off the `mobile` flag. -/
def modeOf (s : PageState) : Mode :=
  if s.mobile then Mode.Stacked else Mode.Paneled

/-- Animation and style commands issued by `showSection`, in order. -/
inductive AnimCmd where
  | animateTop (name : String) (target : TopPos)
  | setTop (name : String) (t : TopPos)
  | setDisplay (name : String) (d : Bool)
deriving DecidableEq

/-- Off-screen target of an outgoing panel in `showSection`: for direction
up it is just past the bottom of the document, otherwise just past the
top. -/
def outgoingTarget (dir : String) (offScreen h : ℚ) : TopPos :=
  if dir = "up" then TopPos.px (offScreen + h / 1.5) else TopPos.px (-(h / 1.5))

/-- Off-screen starting position given to an incoming panel in
`showSection`: the side opposite to `outgoingTarget` for the same
direction. -/
def incomingStart (dir : String) (offScreen h : ℚ) : TopPos :=
  if dir = "up" then TopPos.px (-(h / 1.5)) else TopPos.px (offScreen + h / 1.5)

/-- Phase 1 of `showSection` on one panel: a panel without the `hidden`
class gains it and is animated off-screen. -/
def hideOut (dir : String) (offScreen : ℚ) (p : Panel) : Panel × List AnimCmd :=
  if p.hidden then (p, [])
  else ({ p with hidden := true },
    [AnimCmd.animateTop p.name (outgoingTarget dir offScreen p.height)])

/-- Phase 2 of `showSection` on one panel: a panel without the `hidden`
class is pre-positioned off-screen, made `display: block`, and animated to
the centered resting position `top: 50%`. -/
def bringIn (dir : String) (offScreen : ℚ) (p : Panel) : Panel × List AnimCmd :=
  if p.hidden then (p, [])
  else
    ({ p with top := incomingStart dir offScreen p.height, displayed := true },
      [AnimCmd.setTop p.name (incomingStart dir offScreen p.height),
        AnimCmd.setDisplay p.name true,
        AnimCmd.animateTop p.name (TopPos.pct 50)])

/-- Apply a panel transformer across a list, collecting the commands it
issues in document order. -/
def mapCollect (f : Panel → Panel × List AnimCmd) : List Panel → List Panel × List AnimCmd
  | [] => ([], [])
  | p :: rest =>
    let r := f p
    let rs := mapCollect f rest
    (r.1 :: rs.1, r.2 ++ rs.2)

/-- Remove the `hidden` class from every panel carrying the target class
name. -/
def unhideMatching (target : String) (ps : List Panel) : List Panel :=
  ps.map fun p => if p.name = target then { p with hidden := false } else p

/-- The `showSection(sectionName, dir)` transition of the legacy script.
Guarded to non-mobile state; phase 1 hides and animates out every visible
panel, the target is un-hidden, a 500 ms timer is scheduled to force
`display: none` on hidden panels, and phase 2 pre-positions and animates in
every now-visible panel.  Returns the new state and the command log. -/
def showSection (target dir : String) (s : PageState) : PageState × List AnimCmd :=
  if s.mobile then (s, [])
  else
    let offScreen := s.docHeight
    let r1 := mapCollect (hideOut dir offScreen) s.panels
    let ps1 := unhideMatching target r1.1
    let r2 := mapCollect (bringIn dir offScreen) ps1
    ({ s with panels := r2.1, timers := s.timers ++ [s.now + 500] }, r1.2 ++ r2.2)

/-- Body of the 500 ms timer: every panel currently carrying the `hidden`
class is forced to `display: none`. -/
def hideHiddenPanels (ps : List Panel) : List Panel :=
  ps.map fun p => if p.hidden then { p with displayed := false } else p

/-- Fire the earliest pending timer, advancing the clock to its fire
time. -/
def fireNextTimer (s : PageState) : PageState :=
  match s.timers with
  | [] => s
  | t :: rest => { s with now := t, panels := hideHiddenPanels s.panels, timers := rest }

/-- Let wall-clock time pass without any timer firing. -/
def advanceTime (d : ℚ) (s : PageState) : PageState :=
  { s with now := s.now + d }

/-! ## Nav direction (legacy jQuery script) -/

/-- JavaScript `Array.prototype.indexOf`: 0-based index of the first
occurrence, or -1 when absent. -/
def jsIndexOf : List String → String → Int
  | [], _ => -1
  | a :: rest, x =>
    if a = x then 0
    else
      let r := jsIndexOf rest x
      if r = -1 then -1 else r + 1

/-- Direction computed by the nav click handler: up when the current
section sits later in the `sections` array than the selected one, down
otherwise. -/
def navDir (names : List String) (curr sel : String) : String :=
  if jsIndexOf names curr > jsIndexOf names sel then "up" else "down"

/-- A click on a nav indicator.  The handler is bound only to nav items
without the `active` class, so a click on the indicator of the current
section runs no handler at all; otherwise the handler computes the
direction and calls `showSection`. -/
def clickNavItem (names : List String) (curr sel : String) (s : PageState) :
    PageState × List AnimCmd :=
  if sel = curr then (s, [])
  else showSection sel (navDir names curr sel) s

/-- The abstract transition directions of the specification. -/
inductive Direction where
  | towardEnd
  | towardStart
deriving DecidableEq

/-- The direction rule exactly as the spec words it: towardEnd when the
order of the target exceeds the order of the source, towardStart
otherwise. -/
def specDirection (fromOrder toOrder : Int) : Direction :=
  if toOrder > fromOrder then Direction.towardEnd else Direction.towardStart

/-- Rendering of an abstract direction as the string the legacy script
uses: a transition toward the end brings the incoming panel up from below,
which the script calls down. -/
def dirToString : Direction → String
  | Direction.towardEnd => "down"
  | Direction.towardStart => "up"

/-! ## Concrete page used in scenarios -/

/-- Home panel, visible and centered. -/
def homePanel : Panel :=
  { name := "home", isHome := true, hidden := false, mobileCls := false,
    displayed := true, top := TopPos.pct 50, height := 300 }

/-- About panel, hidden. -/
def aboutPanel : Panel :=
  { name := "about", isHome := false, hidden := true, mobileCls := false,
    displayed := false, top := TopPos.pct 50, height := 300 }

/-- Work panel, hidden. -/
def workPanel : Panel :=
  { name := "work", isHome := false, hidden := true, mobileCls := false,
    displayed := false, top := TopPos.pct 50, height := 300 }

/-- Fresh desktop page state: home visible, other panels hidden. -/
def demoState : PageState :=
  { panels := [homePanel, aboutPanel, workPanel], mobile := false,
    docHeight := 1000, now := 0, timers := [] }

/-- The same page already in mobile (stacked) view. -/
def mobileDemoState : PageState :=
  { panels := [toMobilePanel homePanel, toMobilePanel aboutPanel, toMobilePanel workPanel],
    mobile := true, docHeight := 1000, now := 0, timers := [] }

/-- Names of the panels that are logically visible and rendered. -/
def visibleNames (s : PageState) : List String :=
  (s.panels.filter fun p => !p.hidden && p.displayed).map fun p => p.name

/-- Css top values of the home panels. -/
def homeTops (s : PageState) : List TopPos :=
  (s.panels.filter fun p => p.isHome).map fun p => p.top

/-- Fold a width sequence through `checkWidths`, counting the tier
transitions actually triggered (changes of the `mobile` flag). -/
def runWidths (ws : List ℚ) (s : PageState) : PageState × Nat :=
  ws.foldl
    (fun acc w =>
      let s2 := checkWidths w acc.1
      (s2, acc.2 + if s2.mobile = acc.1.mobile then 0 else 1))
    (s, 0)

/-- State after the first transition request of the racing scenario:
showing work (C) from the fresh state. -/
def raceAfterFirst : PageState := (showSection "work" "down" demoState).1

/-- 100 ms later, mid-flight of the first transition, before its 500 ms
timer fires. -/
def raceMidFlight : PageState := advanceTime 100 raceAfterFirst

/-- State right after the second, interrupting request: showing about (B). -/
def raceAfterSecond : PageState := (showSection "about" "down" raceMidFlight).1

/-- Settled state: both pending timers have fired. -/
def raceSettled : PageState := fireNextTimer (fireNextTimer raceAfterSecond)

/-! ## Router event registration (Next.js InContext container) -/

/-- The handlers the `InContext` effect can attach to router events. -/
inductive Handler where
  | onRouteStart
  | onRouteCompleteScroll
  | recalcSectionIndex
deriving DecidableEq

/-- Registrations performed by the `InContext` effect, in program order:
route change handlers always, and the hash change handler when the
recalculate function is available. -/
def setupRegs (recalcPresent : Bool) : List (String × Handler) :=
  [("routeChangeStart", Handler.onRouteStart),
    ("routeChangeComplete", Handler.onRouteCompleteScroll)] ++
    (if recalcPresent then [("hashChangeStart", Handler.recalcSectionIndex)] else [])

/-- Removal of one event registration (`router.events.off`). -/
def offReg (e : String) (h : Handler) (regs : List (String × Handler)) :
    List (String × Handler) :=
  regs.filter fun r => !(r.1 == e && r.2 == h)

/-- The cleanup function returned by the effect: runs the accumulated
removal functions, hash removal first when present, then the two route
removals. -/
def teardownRegs (recalcPresent : Bool) (regs : List (String × Handler)) :
    List (String × Handler) :=
  let r1 := if recalcPresent then offReg "hashChangeStart" Handler.recalcSectionIndex regs
    else regs
  offReg "routeChangeComplete" Handler.onRouteCompleteScroll
    (offReg "routeChangeStart" Handler.onRouteStart r1)

/-- Core scroll-tracking state of the container: the page's section list,
the current scroll offset, the rendering flag and the derived section
index. -/
structure CoreState where
  sections : List ContentSection
  offset : ℚ
  rendering : Bool
  sectionIndex : Option Nat
deriving DecidableEq

/-- Modelled from the spec: `recalculate()` recomputes the section index
from the current offset and section list. -/
def recalc (s : CoreState) : CoreState :=
  { s with sectionIndex := resolve s.sections s.offset }

/-- Effect of each handler on the core state. -/
def runHandler : Handler → CoreState → CoreState
  | Handler.onRouteStart, s => { s with rendering := true }
  | Handler.onRouteCompleteScroll, s => { s with offset := 0, rendering := false }
  | Handler.recalcSectionIndex, s => recalc s

/-- Dispatch an event: run every handler registered for it, in
registration order. -/
def dispatchEvent (regs : List (String × Handler)) (e : String) (s : CoreState) :
    CoreState :=
  (regs.filter fun r => r.1 == e).foldl (fun st r => runHandler r.2 st) s

/-- Same-page hash navigation to the section at position `k`: the browser
scrolls the anchor to the top (no scroll event is modelled, since none
reliably fires) and the router emits `hashChangeStart`. -/
def hashNavigate (regs : List (String × Handler)) (k : Nat) (s : CoreState) :
    CoreState :=
  dispatchEvent regs "hashChangeStart"
    { s with offset := (s.sections.getD k dSec).startOffset }

/-- Concrete core state for witnesses: the demo sections, scrolled to the
top, index resolved to 0. -/
def demoCoreState : CoreState :=
  { sections := demoSections, offset := 0, rendering := false, sectionIndex := some 0 }

/-! ## Screen props (InContext render and Screen component) -/

/-- The `contentSections` prop shape passed to `Screen`. -/
structure ContentSectionsProp where
  currentSectionIndex : Option Nat
  pageSections : List ContentSection
deriving DecidableEq

/-- The `contentSections` value `InContext` renders: the prop object when
the page's section list is non-empty (JavaScript truthiness of
`sections.length`), undefined otherwise. -/
def contentSectionsFor (sections : List ContentSection) (idx : Option Nat) :
    Option ContentSectionsProp :=
  if sections.length ≠ 0 then some { currentSectionIndex := idx, pageSections := sections }
  else none

/-- Whether `Screen` mounts the side nav menu: only when `contentSections`
is defined and the display size allows it. -/
def sideNavMounted (cs : Option ContentSectionsProp) (shouldShowSideNav : Bool) : Bool :=
  cs.isSome && shouldShowSideNav

/-! ## Project overlay (projects page script) -/

/-- State of the secondary project detail overlay: whether the `hidden`
class is present and the remaining milliseconds of a running open or close
animation, if any. -/
structure OverlayState where
  overlayHidden : Bool
  overlayAnimRemaining : Option ℚ
deriving DecidableEq

/-- The closing branch of `toggleInfo`: fades content, toggles size and the
`hidden` class (the class toggle is applied synchronously, the animation
runs for the default 400 ms). -/
def toggleInfoIn (s : OverlayState) : OverlayState :=
  { overlayHidden := !s.overlayHidden, overlayAnimRemaining := some 400 }

/-- The nav click guard of the projects page: when the overlay is open,
close it; then the click event continues to any navigation behaviour in
the same tick. The returned state is the one navigation observes. -/
def navClickOverlayGuard (s : OverlayState) : OverlayState :=
  if s.overlayHidden = false then toggleInfoIn s else s

/-- An open overlay at rest, no animation running. -/
def demoOpenOverlay : OverlayState :=
  { overlayHidden := false, overlayAnimRemaining := none }

end Krockwell

namespace Krockwell

/-! ## Characterisation of the resolver scan -/

theorem resolveAux_eq_lastSat (offset : ℚ) :
    ∀ (l : List ContentSection) (i acc : Nat),
      resolveAux offset l i acc =
        (match lastSat offset l with
          | none => acc
          | some k => i + k) := by
  intro l
  induction l with
  | nil => intro i acc; rfl
  | cons s rest ih =>
    intro i acc
    simp only [resolveAux, lastSat]
    cases hr : lastSat offset rest with
    | none =>
      by_cases h : s.startOffset ≤ offset
      · simp [h, ih, hr]
      · simp [h, ih, hr]
    | some k =>
      by_cases h : s.startOffset ≤ offset
      · simp [h, ih, hr]; ring
      · simp [h, ih, hr]; ring

theorem lastSat_none (offset : ℚ) :
    ∀ (l : List ContentSection), lastSat offset l = none →
      ∀ j, j < l.length → ¬(l.getD j dSec).startOffset ≤ offset := by
  intro l
  induction l with
  | nil => intro _ j hj; simp at hj
  | cons s rest ih =>
    intro hnone j hj
    have hrest : lastSat offset rest = none := by
      simp only [lastSat] at hnone
      cases hr : lastSat offset rest with
      | none => rfl
      | some k => rw [hr] at hnone; simp at hnone
    have hs : ¬s.startOffset ≤ offset := by
      simp only [lastSat, hrest] at hnone
      by_cases h : s.startOffset ≤ offset
      · rw [if_pos h] at hnone; simp at hnone
      · exact h
    cases j with
    | zero => simpa using hs
    | succ j0 =>
      have hj0 : j0 < rest.length := by simpa using hj
      simpa using ih hrest j0 hj0

theorem lastSat_some (offset : ℚ) :
    ∀ (l : List ContentSection) (k : Nat), lastSat offset l = some k →
      k < l.length ∧ (l.getD k dSec).startOffset ≤ offset ∧
        ∀ j, j < l.length → (l.getD j dSec).startOffset ≤ offset → j ≤ k := by
  intro l
  induction l with
  | nil => intro k hk; simp [lastSat] at hk
  | cons s rest ih =>
    intro k hk
    simp only [lastSat] at hk
    cases hr : lastSat offset rest with
    | some k0 =>
      rw [hr] at hk
      have hkk : k = k0 + 1 := by simpa using hk.symm
      subst hkk
      obtain ⟨hlt, hsat, hmax⟩ := ih k0 hr
      refine ⟨by simpa using hlt, by simpa using hsat, ?_⟩
      intro j hj hjsat
      cases j with
      | zero => omega
      | succ j0 =>
        have hj0 : j0 < rest.length := by simpa using hj
        have := hmax j0 hj0 (by simpa using hjsat)
        omega
    | none =>
      rw [hr] at hk
      by_cases h : s.startOffset ≤ offset
      · rw [if_pos h] at hk
        have hkk : k = 0 := by simpa using hk.symm
        subst hkk
        refine ⟨by simp, by simpa using h, ?_⟩
        intro j hj hjsat
        cases j with
        | zero => omega
        | succ j0 =>
          have hj0 : j0 < rest.length := by simpa using hj
          exact absurd (by simpa using hjsat) (lastSat_none offset rest hr j0 hj0)
      · rw [if_neg h] at hk; simp at hk

/-- C1: for every well-formed section list and non-negative offset, the
resolver returns the greatest index whose start offset is at most the
offset, and returns 0 when the offset is below every start offset; on the
scenario list with start offsets 0, 800, 1600 it returns 0 at 750, 1 at
800 and 2 at 2000. -/
theorem c1_resolve_greatest :
    (∀ (sections : List ContentSection) (offset : ℚ),
        sectionsWellFormed sections → sections ≠ [] → 0 ≤ offset →
        ∃ i, resolve sections offset = some i ∧ i < sections.length ∧
          ((∃ j, j < sections.length ∧ (sections.getD j dSec).startOffset ≤ offset) →
            (sections.getD i dSec).startOffset ≤ offset ∧
              ∀ j, j < sections.length → (sections.getD j dSec).startOffset ≤ offset → j ≤ i) ∧
          ((∀ j, j < sections.length → offset < (sections.getD j dSec).startOffset) → i = 0)) ∧
      resolve demoSections 750 = some 0 ∧
      resolve demoSections 800 = some 1 ∧
      resolve demoSections 2000 = some 2 := by
  refine ⟨?_, ?_, ?_, ?_⟩
  · intro sections offset _hwf hne _hoff
    cases hs : sections with
    | nil => exact absurd hs hne
    | cons s rest =>
      subst hs
      rw [resolve, resolveAux_eq_lastSat]
      cases hls : lastSat offset (s :: rest) with
      | none =>
        refine ⟨0, rfl, by simp, ?_, fun _ => rfl⟩
        intro hex
        obtain ⟨j, hj, hjsat⟩ := hex
        exact absurd hjsat (lastSat_none offset (s :: rest) hls j hj)
      | some k =>
        obtain ⟨hlt, hsat, hmax⟩ := lastSat_some offset (s :: rest) k hls
        refine ⟨k, by simp, hlt, fun _ => ⟨hsat, hmax⟩, ?_⟩
        intro hall
        exact absurd hsat (not_le.mpr (hall k hlt))
  · norm_num [resolve, resolveAux, demoSections]
  · norm_num [resolve, resolveAux, demoSections]
  · norm_num [resolve, resolveAux, demoSections]

/-- Witness for c1_resolve_greatest: the scenario list is well-formed and
the resolver characterisation holds on it at offset 750. -/
theorem c1_resolve_greatest_witness :
    sectionsWellFormed demoSections ∧ demoSections ≠ [] ∧ (0 : ℚ) ≤ 750 ∧
      (∃ i, resolve demoSections 750 = some i ∧ i < demoSections.length ∧
        ((∃ j, j < demoSections.length ∧ (demoSections.getD j dSec).startOffset ≤ 750) →
          (demoSections.getD i dSec).startOffset ≤ 750 ∧
            ∀ j, j < demoSections.length → (demoSections.getD j dSec).startOffset ≤ 750 → j ≤ i) ∧
        ((∀ j, j < demoSections.length → (750 : ℚ) < (demoSections.getD j dSec).startOffset) → i = 0)) :=
  ⟨⟨rfl, by norm_num [demoSections, List.pairwise_cons]⟩, by simp [demoSections],
    by norm_num,
    c1_resolve_greatest.1 demoSections 750
      ⟨rfl, by norm_num [demoSections, List.pairwise_cons]⟩ (by simp [demoSections])
      (by norm_num)⟩

end Krockwell

namespace Krockwell

/-! ## Breakpoint state machine -/

/-- C10: for every viewport width and state, `checkWidths` leaves the page
in Stacked mode exactly when the width is at most the mobile threshold 800
(the boundary width 800 itself is Stacked), and in Paneled mode otherwise,
so every width is classified into exactly one mode. -/
theorem c10_threshold_classification :
    (∀ (w : ℚ) (s : PageState),
        modeOf (checkWidths w s) =
          if w ≤ MOBILE_SIZE then Mode.Stacked else Mode.Paneled) ∧
      modeOf (checkWidths 800 demoState) = Mode.Stacked := by
  constructor
  · intro w s
    unfold checkWidths modeOf
    by_cases hw : w ≤ MOBILE_SIZE
    · cases hm : s.mobile
      · simp [hw, hm]
      · simp [hw, hm, not_lt.mpr hw]
    · cases hm : s.mobile
      · simp [hw, hm]
      · simp [hw, hm, not_le.mp hw]
  · norm_num [checkWidths, MOBILE_SIZE, demoState, modeOf]

/-- Witness for c10_threshold_classification at width 800 on the demo
state. -/
theorem c10_threshold_classification_witness :
    modeOf (checkWidths 800 demoState) =
      if (800 : ℚ) ≤ MOBILE_SIZE then Mode.Stacked else Mode.Paneled :=
  c10_threshold_classification.1 800 demoState

/-- C5: the Paneled/Stacked state machine is a no-op whenever the width is
on the same side of the threshold as the remembered state flag, and on the
width sequence 900, 750, 900 from the fresh desktop page it performs
exactly two tier transitions and leaves the home section anchored at
top 50%. -/
theorem c5_breakpoint_idempotent :
    (∀ (w : ℚ) (s : PageState), ((w ≤ MOBILE_SIZE) ↔ s.mobile = true) →
        checkWidths w s = s) ∧
      (runWidths [900, 750, 900] demoState).2 = 2 ∧
      homeTops (runWidths [900, 750, 900] demoState).1 = [TopPos.pct 50] := by
  refine ⟨?_, ?_, ?_⟩
  · intro w s hiff
    unfold checkWidths
    by_cases hw : w ≤ MOBILE_SIZE
    · simp [hw, hiff.mp hw, not_lt.mpr hw]
    · have hm : s.mobile = false := by
        cases hmb : s.mobile
        · rfl
        · exact absurd (hiff.mpr hmb) hw
      simp [hw, hm]
  · norm_num [runWidths, checkWidths, MOBILE_SIZE, demoState, toMobilePanel, toFullPanel,
      homePanel, aboutPanel, workPanel]
  · norm_num [homeTops, runWidths, checkWidths, MOBILE_SIZE, demoState, toMobilePanel,
      toFullPanel, homePanel, aboutPanel, workPanel, List.filter]

/-- Witness for c5_breakpoint_idempotent: width 900 with the paneled demo
state satisfies the same-tier hypothesis, and re-checking is a no-op. -/
theorem c5_breakpoint_idempotent_witness :
    (((900 : ℚ) ≤ MOBILE_SIZE) ↔ demoState.mobile = true) ∧
      checkWidths 900 demoState = demoState :=
  ⟨by norm_num [MOBILE_SIZE, demoState],
    c5_breakpoint_idempotent.1 900 demoState (by norm_num [MOBILE_SIZE, demoState])⟩

/-! ## Transitions -/

/-- C8: in the Stacked (mobile) state a transition request is a complete
no-op: `showSection` returns the state unchanged and issues no animation
or style command. -/
theorem c8_stacked_noop :
    ∀ (s : PageState) (target dir : String), s.mobile = true →
      showSection target dir s = (s, []) := by
  intro s target dir h
  unfold showSection
  simp [h]

/-- Witness for c8_stacked_noop on the mobile demo state. -/
theorem c8_stacked_noop_witness :
    mobileDemoState.mobile = true ∧
      showSection "about" "down" mobileDemoState = (mobileDemoState, []) :=
  ⟨rfl, c8_stacked_noop mobileDemoState "about" "down" rfl⟩

/-- C4: for any two distinct sections present in the section name array,
the click handler direction agrees with the spec rule (towardEnd, rendered
down, exactly when the target index exceeds the source index); order 2 to
order 0 gives up (towardStart), order 0 to order 2 gives down (towardEnd),
and a click on the nav item of the current section runs no handler, so a
self transition triggers nothing. -/
theorem c4_direction_rule :
    (∀ (names : List String) (curr sel : String) (i j : Int),
        jsIndexOf names curr = i → jsIndexOf names sel = j →
        0 ≤ i → 0 ≤ j → i ≠ j →
        navDir names curr sel = dirToString (specDirection i j) ∧
          (navDir names curr sel = "down" ↔ i < j)) ∧
      navDir ["home", "about", "work"] "work" "home" = "up" ∧
      navDir ["home", "about", "work"] "home" "work" = "down" ∧
      ∀ (names : List String) (x : String) (s : PageState),
        clickNavItem names x x s = (s, []) := by
  refine ⟨?_, by decide, by decide, ?_⟩
  · intro names curr sel i j hi hj _ _ hne
    unfold navDir specDirection dirToString
    rw [hi, hj]
    rcases lt_trichotomy i j with h | h | h
    · rw [if_neg (by omega), if_pos h]
      exact ⟨rfl, by simp [h]⟩
    · exact absurd h hne
    · rw [if_pos h, if_neg (by omega)]
      refine ⟨rfl, ?_⟩
      constructor
      · intro hud; exact absurd hud (by decide)
      · intro hij; omega
  · intro names x s
    unfold clickNavItem
    simp

/-- Witness for c4_direction_rule: home (index 0) to work (index 2) is a
down (towardEnd) transition. -/
theorem c4_direction_rule_witness :
    jsIndexOf ["home", "about", "work"] "home" = 0 ∧
      jsIndexOf ["home", "about", "work"] "work" = 2 ∧
      (0 : Int) ≤ 0 ∧ (0 : Int) ≤ 2 ∧ (0 : Int) ≠ 2 ∧
      navDir ["home", "about", "work"] "home" "work" = dirToString (specDirection 0 2) ∧
      (navDir ["home", "about", "work"] "home" "work" = "down" ↔ (0 : Int) < 2) :=
  ⟨by decide, by decide, by decide, by decide, by decide,
    (c4_direction_rule.1 ["home", "about", "work"] "home" "work" 0 2 (by decide) (by decide)
        (by decide) (by decide) (by decide)).1,
    (c4_direction_rule.1 ["home", "about", "work"] "home" "work" 0 2 (by decide) (by decide)
        (by decide) (by decide) (by decide)).2⟩

end Krockwell

namespace Krockwell

/-! ## Off-screen geometry of showSection -/

/-- Division by the literal 1.5 of the script is multiplication by two
thirds. -/
theorem div_onePointFive (h : ℚ) : h / 1.5 = 2 * h / 3 := by
  rw [show (1.5 : ℚ) = 3 / 2 by norm_num]
  ring

theorem mapCollect_fst (f : Panel → Panel × List AnimCmd) :
    ∀ l : List Panel, (mapCollect f l).1 = l.map fun p => (f p).1 := by
  intro l
  induction l with
  | nil => rfl
  | cons p rest ih => simp [mapCollect, ih]

theorem mapCollect_snd_mem (f : Panel → Panel × List AnimCmd) :
    ∀ (l : List Panel) (p : Panel) (c : AnimCmd),
      p ∈ l → c ∈ (f p).2 → c ∈ (mapCollect f l).2 := by
  intro l
  induction l with
  | nil => intro p c hp _; simp at hp
  | cons q rest ih =>
    intro p c hp hc
    simp only [mapCollect, List.mem_append]
    rcases List.mem_cons.mp hp with h | h
    · subst h; exact Or.inl hc
    · exact Or.inr (ih p c h hc)

theorem hideOut_fst (dir : String) (off : ℚ) (p : Panel) :
    (hideOut dir off p).1 = { p with hidden := true } := by
  unfold hideOut
  by_cases h : p.hidden = true
  · rw [if_pos h]
    cases p
    simp_all
  · rw [if_neg h]

/-- After phase 1 and the target un-hide, the panel list is the original
one with the target panels un-hidden and every other panel hidden. -/
theorem showSection_panels_phase1 (target dir : String) (off : ℚ) (l : List Panel) :
    unhideMatching target (mapCollect (hideOut dir off) l).1 =
      l.map fun p =>
        if p.name = target then { p with hidden := false } else { p with hidden := true } := by
  rw [mapCollect_fst]
  unfold unhideMatching
  rw [List.map_map]
  congr 1
  funext p
  simp [Function.comp, hideOut_fst]

/-- C2 is false as stated: in the towardEnd (down) transition from home to
about on the demo page (document height 1000, every panel of height 300),
the script animates the outgoing home panel to top -200, not to
1000 + 200 = 1200 as the claim requires, and pre-positions the incoming
about panel at 1200, not at -200. -/
theorem c2_direction_counterexample :
    AnimCmd.animateTop "home" (TopPos.px (-200)) ∈ (showSection "about" "down" demoState).2 ∧
      AnimCmd.animateTop "home" (TopPos.px 1200) ∉ (showSection "about" "down" demoState).2 ∧
      AnimCmd.setTop "about" (TopPos.px 1200) ∈ (showSection "about" "down" demoState).2 ∧
      AnimCmd.setTop "about" (TopPos.px (-200)) ∉ (showSection "about" "down" demoState).2 := by
  refine ⟨?_, ?_, ?_, ?_⟩ <;>
    norm_num +decide [showSection, demoState, mapCollect, hideOut, bringIn, unhideMatching,
      homePanel, aboutPanel, workPanel, outgoingTarget, incomingStart]

/-- C2 (amended): in a non-mobile transition, every outgoing (previously
visible) panel of height h is animated off-screen to top -(2/3)h when the
direction is towardEnd (down) and to documentHeight + (2/3)h when it is
towardStart (up); every incoming panel (one matching the target name) is
pre-positioned off-screen on the opposite side for the same direction and
animated to the centered resting position top 50%. -/
theorem c2_offscreen_geometry :
    ∀ (s : PageState) (target : String) (d : Direction) (p : Panel),
      s.mobile = false → p ∈ s.panels →
      (p.hidden = false →
        AnimCmd.animateTop p.name
            (TopPos.px (if d = Direction.towardEnd then -(2 * p.height / 3)
              else s.docHeight + 2 * p.height / 3)) ∈
          (showSection target (dirToString d) s).2) ∧
      (p.name = target →
        AnimCmd.setTop p.name
            (TopPos.px (if d = Direction.towardEnd then s.docHeight + 2 * p.height / 3
              else -(2 * p.height / 3))) ∈
          (showSection target (dirToString d) s).2 ∧
        AnimCmd.animateTop p.name (TopPos.pct 50) ∈ (showSection target (dirToString d) s).2) := by
  intro s target d p hm hp
  have hlog : (showSection target (dirToString d) s).2 =
      (mapCollect (hideOut (dirToString d) s.docHeight) s.panels).2 ++
        (mapCollect (bringIn (dirToString d) s.docHeight)
          (unhideMatching target (mapCollect (hideOut (dirToString d) s.docHeight) s.panels).1)).2 := by
    unfold showSection
    simp [hm]
  constructor
  · intro hh
    rw [hlog]
    apply List.mem_append_left
    apply mapCollect_snd_mem _ _ p _ hp
    unfold hideOut
    rw [if_neg (by simp [hh])]
    cases d <;>
      simp +decide [outgoingTarget, dirToString, div_onePointFive]
  · intro hname
    have hmem2 : ({ p with hidden := false } : Panel) ∈
        unhideMatching target (mapCollect (hideOut (dirToString d) s.docHeight) s.panels).1 := by
      rw [showSection_panels_phase1]
      refine List.mem_map.mpr ⟨p, hp, ?_⟩
      rw [if_pos hname]
    constructor
    · rw [hlog]
      apply List.mem_append_right
      apply mapCollect_snd_mem _ _ _ _ hmem2
      unfold bringIn
      rw [if_neg (by simp)]
      cases d <;>
        simp +decide [incomingStart, dirToString, div_onePointFive]
    · rw [hlog]
      apply List.mem_append_right
      apply mapCollect_snd_mem _ _ _ _ hmem2
      unfold bringIn
      rw [if_neg (by simp)]
      simp

/-- Witness for c2_offscreen_geometry: the outgoing home panel of the demo
towardEnd transition is animated to top -(2/3) of its height. -/
theorem c2_offscreen_geometry_witness :
    demoState.mobile = false ∧ homePanel ∈ demoState.panels ∧ homePanel.hidden = false ∧
      AnimCmd.animateTop homePanel.name
          (TopPos.px (if Direction.towardEnd = Direction.towardEnd
            then -(2 * homePanel.height / 3)
            else demoState.docHeight + 2 * homePanel.height / 3)) ∈
        (showSection "about" (dirToString Direction.towardEnd) demoState).2 :=
  ⟨rfl, by simp [demoState], rfl,
    (c2_offscreen_geometry demoState "about" Direction.towardEnd homePanel rfl
        (by simp [demoState])).1 rfl⟩

end Krockwell

namespace Krockwell

/-! ## The stale-timer race (transition interruption) -/

/-- C3: evaluation of the racing scenario on the code.  After the second
transition request (home to about, issued 100 ms into the home-to-work
transition) the 500 ms force-non-rendered timer of the first transition is
still pending (the pending list holds both fire times, 500 and 600, so
nothing was cancelled), and once both timers have fired the about panel is
the only visible section. -/
theorem c3_stale_timer_eval :
    raceAfterSecond.timers = [500, 600] ∧ visibleNames raceSettled = ["about"] := by
  constructor
  · norm_num +decide [raceAfterSecond, raceMidFlight, raceAfterFirst, advanceTime, showSection,
      demoState, mapCollect, hideOut, bringIn, unhideMatching, homePanel, aboutPanel, workPanel]
  · norm_num +decide [visibleNames, raceSettled, raceAfterSecond, raceMidFlight, raceAfterFirst,
      advanceTime, fireNextTimer, hideHiddenPanels, showSection, demoState, mapCollect, hideOut,
      bringIn, unhideMatching, homePanel, aboutPanel, workPanel, outgoingTarget, incomingStart,
      List.filter]

/-! ## Hash navigation and recalculation -/

theorem resolve_eq_of_lastSat (l : List ContentSection) (offset : ℚ) (k : Nat)
    (h : lastSat offset l = some k) : resolve l offset = some k := by
  cases l with
  | nil => simp [lastSat] at h
  | cons s rest =>
    rw [resolve, resolveAux_eq_lastSat, h]
    simp

theorem lastSat_isSome_of_sat (offset : ℚ) (l : List ContentSection) (j : Nat)
    (hj : j < l.length) (hsat : (l.getD j dSec).startOffset ≤ offset) :
    ∃ k, lastSat offset l = some k := by
  cases hls : lastSat offset l with
  | none => exact absurd hsat (lastSat_none offset l hls j hj)
  | some k => exact ⟨k, rfl⟩

/-- With strictly increasing start offsets, resolving exactly at the start
offset of the section in position k yields k. -/
theorem resolve_at_startOffset (l : List ContentSection)
    (hs : l.Pairwise fun a b => a.startOffset < b.startOffset)
    (k : Nat) (hk : k < l.length) :
    resolve l ((l.getD k dSec).startOffset) = some k := by
  obtain ⟨k0, hk0⟩ := lastSat_isSome_of_sat ((l.getD k dSec).startOffset) l k hk le_rfl
  obtain ⟨hlt, hsat, hmax⟩ := lastSat_some ((l.getD k dSec).startOffset) l k0 hk0
  have hkk0 : k ≤ k0 := hmax k hk le_rfl
  have hk0k : k0 ≤ k := by
    by_contra hgt
    push_neg at hgt
    have hpair := List.pairwise_iff_getElem.mp hs k k0 hk hlt hgt
    rw [List.getD_eq_getElem _ _ hk, List.getD_eq_getElem _ _ hlt] at hsat
    exact absurd hsat (not_le.mpr hpair)
  have hkeq : k0 = k := le_antisymm hk0k hkk0
  subst hkeq
  exact resolve_eq_of_lastSat l _ k0 hk0

/-- C6: the InContext effect registers a hashChangeStart listener invoking
the section index recalculation, the teardown removes every registration,
and a same-page hash navigation to the section in position k (strictly
sorted start offsets, contiguous orders) leaves the SectionIndex equal to
that section's order even though no scroll event fires. -/
theorem c6_hash_recalculate :
    ("hashChangeStart", Handler.recalcSectionIndex) ∈ setupRegs true ∧
      teardownRegs true (setupRegs true) = [] ∧
      ∀ (st : CoreState) (k : Nat),
        st.sections.Pairwise (fun a b => a.startOffset < b.startOffset) →
        (st.sections.map fun s => s.order) = List.range st.sections.length →
        k < st.sections.length →
        (hashNavigate (setupRegs true) k st).sectionIndex = some ((st.sections.getD k dSec).order) ∧
          (st.sections.getD k dSec).order = k := by
  refine ⟨by decide, by decide, ?_⟩
  intro st k hs hord hk
  have horder : (st.sections.getD k dSec).order = k := by
    have hcast := congrArg (fun l => l.getD k 0) hord
    have hk2 : k < (st.sections.map fun s => s.order).length := by simpa using hk
    have hk3 : k < (List.range st.sections.length).length := by simpa using hk
    simp only [List.getD_eq_getElem _ _ hk2, List.getD_eq_getElem _ _ hk3] at hcast
    rw [List.getElem_map, List.getElem_range] at hcast
    rw [List.getD_eq_getElem _ _ hk]
    exact hcast
  refine ⟨?_, horder⟩
  rw [horder]
  have hfilter : List.filter (fun r => r.1 == "hashChangeStart") (setupRegs true) =
      [("hashChangeStart", Handler.recalcSectionIndex)] := by decide
  unfold hashNavigate dispatchEvent
  rw [hfilter]
  simp only [List.foldl, runHandler, recalc]
  exact resolve_at_startOffset st.sections hs k hk

/-- Witness for c6_hash_recalculate: hash navigation to position 1 of the
demo sections resolves the index to 1, the order of the about section. -/
theorem c6_hash_recalculate_witness :
    demoCoreState.sections.Pairwise (fun a b => a.startOffset < b.startOffset) ∧
      (demoCoreState.sections.map fun s => s.order) =
        List.range demoCoreState.sections.length ∧
      1 < demoCoreState.sections.length ∧
      (hashNavigate (setupRegs true) 1 demoCoreState).sectionIndex =
        some ((demoCoreState.sections.getD 1 dSec).order) ∧
      (demoCoreState.sections.getD 1 dSec).order = 1 :=
  ⟨by norm_num [demoCoreState, demoSections, List.pairwise_cons], rfl,
    by norm_num [demoCoreState, demoSections],
    (c6_hash_recalculate.2.2 demoCoreState 1
        (by norm_num [demoCoreState, demoSections, List.pairwise_cons]) rfl
        (by norm_num [demoCoreState, demoSections])).1,
    (c6_hash_recalculate.2.2 demoCoreState 1
        (by norm_num [demoCoreState, demoSections, List.pairwise_cons]) rfl
        (by norm_num [demoCoreState, demoSections])).2⟩

/-! ## Empty section lists -/

/-- C7: with an empty section list the resolver returns none (undefined)
rather than index 0, InContext passes contentSections as undefined to
Screen, and the side nav menu is not mounted at any display size. -/
theorem c7_empty_sections :
    (∀ offset : ℚ, resolve [] offset = none) ∧
      (∀ idx : Option Nat, contentSectionsFor [] idx = none) ∧
      ∀ b : Bool, sideNavMounted (contentSectionsFor [] none) b = false := by
  refine ⟨fun _ => rfl, fun idx => by simp [contentSectionsFor], fun b => ?_⟩
  simp [contentSectionsFor, sideNavMounted]

/-- Witness for c7_empty_sections at offset 0 and full display size. -/
theorem c7_empty_sections_witness :
    resolve [] 0 = none ∧ contentSectionsFor [] none = none ∧
      sideNavMounted (contentSectionsFor [] none) true = false :=
  ⟨c7_empty_sections.1 0, c7_empty_sections.2.1 none, c7_empty_sections.2.2 true⟩

/-! ## Overlay guard on navigation -/

/-- C9 is false as stated: on a nav click with the overlay open and at
rest, the state at which navigation proceeds still has the 400 ms close
animation running (the remaining-animation field is some 400, not none),
so navigation is not deferred until the close completes. -/
theorem c9_deferral_counterexample :
    (navClickOverlayGuard demoOpenOverlay).overlayAnimRemaining = some 400 ∧
      ¬(navClickOverlayGuard demoOpenOverlay).overlayAnimRemaining = none := by
  constructor
  · rfl
  · simp [navClickOverlayGuard, demoOpenOverlay, toggleInfoIn]

/-- C9 (amended): the nav click guard closes the overlay synchronously
before navigation proceeds — the overlay is flagged hidden in the state
navigation observes, whatever the starting state — but navigation is not
deferred until the close completes: it proceeds while the 400 ms close
animation is still running. -/
theorem c9_overlay_close :
    (∀ s : OverlayState, (navClickOverlayGuard s).overlayHidden = true) ∧
      (navClickOverlayGuard demoOpenOverlay).overlayAnimRemaining = some 400 := by
  constructor
  · intro s
    unfold navClickOverlayGuard toggleInfoIn
    by_cases h : s.overlayHidden = false
    · simp [h]
    · simp only [if_neg h]
      cases hb : s.overlayHidden with
      | false => exact absurd hb h
      | true => rfl
  · rfl

end Krockwell
